import Mathlib

/-!
Verification of the Todo List Store (local dev server, `server.js`).

Shallow embedding of the store data model and the CRUD request handler of
`src/server.js` (the aggregate-document implementation, which the spec's
design notes declare canonical; `src/actions/todolist/index.js` implements
the same branch structure).

A `TodoItem` carries a caller-supplied `id` (which in JavaScript may be
absent, hence `Option Nat`) and an opaque payload of remaining fields.
The persisted store is an ordered list of named todo lists.  The handler
reads the store, switches on the operation, and either writes a mutated
store back (success) or returns an error with the store untouched.
-/

namespace TodoApp

/-- A todo item: `id` is the caller-supplied identifier (`none` models a
JavaScript object without an `id` field, since `undefined === undefined`
holds in the source's `findIndex` comparison); `fields` stands for the
open caller-defined remainder (title, completed, ...), uninterpreted by
the store. -/
structure TodoItem where
  id : Option Nat
  fields : String
deriving DecidableEq, Repr

/-- A named todo list, `{ name, todos }` in the source. -/
structure TodoList where
  name : String
  todos : List TodoItem
deriving DecidableEq, Repr

/-- The persisted store: an ordered sequence of todo lists,
most-recently-created first. -/
abbrev Store := List TodoList

/-- The raw persisted representation seen by `readStore`: nothing persisted
yet, malformed JSON, or a valid store document. -/
inductive RawStore where
  | absent
  | malformed
  | valid (s : Store)
deriving DecidableEq, Repr

/-- `readStore` of `server.js`: a missing file is bootstrapped to `[]` by
`ensureStore`, and a `JSON.parse` failure is caught and returns `[]`;
otherwise the parsed store is returned.  It never throws. -/
def readStore : RawStore → Store
  | .absent => []
  | .malformed => []
  | .valid s => s

/-- Stringification of a todo id as JavaScript template literals do
(an absent field prints as `undefined`). -/
def idToString : Option Nat → String
  | none => "undefined"
  | some n => toString n

/-- Message of the create branch. -/
def createdMsg (name : String) : String :=
  "\"" ++ name ++ "\" added."

/-- Error of the create branch on a duplicate name. -/
def existsErr (name : String) : String :=
  "\"" ++ name ++ "\" already exists."

/-- Error returned when `name` is falsy. -/
def missingNameErr : String := "Missing \"name\" parameter"

/-- Error returned when `todo` is falsy in the update branch. -/
def missingTodoErr : String := "Todo is missing."

/-- Error of the update branch when the target list does not exist. -/
def notFoundErr (name : String) : String :=
  name ++ " not found."

/-- Message of the update branch when an existing item is replaced. -/
def updatedMsg (i : Option Nat) (name : String) : String :=
  "Todo \"" ++ idToString i ++ "\" updated in \"" ++ name ++ "\"."

/-- Message of the update branch when a new item is inserted. -/
def addedMsg (i : Option Nat) (name : String) : String :=
  "Todo \"" ++ idToString i ++ "\" added to \"" ++ name ++ "\"."

/-- Error of the update branch when the list is at capacity. -/
def maxErr (maxItems : Nat) (name : String) : String :=
  "Max " ++ toString maxItems ++ " todos reached for \"" ++ name ++ "\"."

/-- Message of the delete branch. -/
def deletedMsg (name : String) : String :=
  "\"" ++ name ++ "\" todo list deleted."

/-- In the source, `todoList.find(...)` returns a live reference that the
update branch mutates in place before writing the whole store.
Functionally: replace the first list whose name matches. -/
def replaceFirst (name : String) (newList : TodoList) : Store → Store
  | [] => []
  | l :: ls => if l.name == name then newList :: ls else l :: replaceFirst name newList ls

/-- The `create` branch of `app.post('/todolist')`: reject a falsy name,
reject a duplicate name, otherwise unshift `{name, todos: []}` and persist. -/
def create (name : String) (store : Store) : Except String (String × Store) :=
  if name = "" then .error missingNameErr
  else if (store.find? (fun l => l.name == name)).isSome then
    .error (existsErr name)
  else
    .ok (createdMsg name, ⟨name, []⟩ :: store)

/-- The `update` branch: validate `name` and `todo`, find the target list,
then upsert by id — replace in place at the found index, or insert at the
front when the count is below `maxItems`, or fail at capacity. -/
def update (maxItems : Nat) (name : String) (todo? : Option TodoItem) (store : Store) :
    Except String (String × Store) :=
  if name = "" then .error missingNameErr
  else
    match todo? with
    | none => .error missingTodoErr
    | some todo =>
      match store.find? (fun l => l.name == name) with
      | none => .error (notFoundErr name)
      | some l =>
        match l.todos.findIdx? (fun t => t.id == todo.id) with
        | some idx =>
          .ok (updatedMsg todo.id name,
               replaceFirst name ⟨l.name, l.todos.set idx todo⟩ store)
        | none =>
          if l.todos.length < maxItems then
            .ok (addedMsg todo.id name,
                 replaceFirst name ⟨l.name, todo :: l.todos⟩ store)
          else
            .error (maxErr maxItems name)

/-- The `delete` branch: validate `name`, filter out every list with that
name (idempotent), persist, report deletion. -/
def deleteList (name : String) (store : Store) : Except String (String × Store) :=
  if name = "" then .error missingNameErr
  else .ok (deletedMsg name, store.filter (fun l => l.name != name))

/-- A request to `app.post('/todolist')`, after the transport has parsed
`operation`, `name`, `todo` from the body.  `update`'s `todo` is optional
because the source separately rejects a missing one. -/
inductive Request where
  | create (name : String)
  | readAll
  | update (name : String) (todo? : Option TodoItem)
  | delete (name : String)
deriving DecidableEq, Repr

/-- A success body: `message` and/or `todoList`, as assembled by the handler. -/
structure Body where
  message : Option String
  todoList : Option Store
deriving DecidableEq, Repr

/-- The whole request handler: dispatch on the operation, producing the
response and the persisted store afterwards (unchanged on every error
path, since `writeStore` is only called on success). -/
def handle (maxItems : Nat) (req : Request) (store : Store) :
    Except String Body × Store :=
  match req with
  | .create name =>
    match create name store with
    | .ok (msg, s) => (.ok ⟨some msg, none⟩, s)
    | .error e => (.error e, store)
  | .readAll => (.ok ⟨none, some store⟩, store)
  | .update name todo? =>
    match update maxItems name todo? store with
    | .ok (msg, s) => (.ok ⟨some msg, none⟩, s)
    | .error e => (.error e, store)
  | .delete name =>
    match deleteList name store with
    | .ok (msg, s) => (.ok ⟨some msg, none⟩, s)
    | .error e => (.error e, store)

/-- The persisted store after one request. -/
def stepStore (maxItems : Nat) (req : Request) (store : Store) : Store :=
  (handle maxItems req store).2

/-- The persisted store after a sequence of requests. -/
def run (maxItems : Nat) (reqs : List Request) (store : Store) : Store :=
  reqs.foldl (fun s r => stepStore maxItems r s) store

/-- "message contains `pat`": the pattern's characters occur contiguously
in the message. -/
def strContains (pat s : String) : Prop := pat.data <:+: s.data

instance (pat s : String) : Decidable (strContains pat s) :=
  List.decidableInfix pat.data s.data

/-- No duplicate list names in a store (§3 invariant). -/
def uniqueNames (s : Store) : Prop := (s.map TodoList.name).Nodup

/-- Every list in the store respects the per-list item cap (§3 invariant). -/
def bounded (maxItems : Nat) (s : Store) : Prop :=
  ∀ l ∈ s, l.todos.length ≤ maxItems

/-! ### Facts about `strContains` and the handler messages -/

theorem strContains_append_three (pat a mid b : String) (h : strContains pat mid) :
    strContains pat (a ++ mid ++ b) := by
  have := h.trans (List.infix_append a.data mid.data b.data)
  simpa [strContains, String.data_append, List.append_assoc] using this

theorem strContains_updatedMsg (i : Option Nat) (name : String) :
    strContains "updated" (updatedMsg i name) := by
  have h1 : "updated".data <:+: "\" updated in \"".data := by decide
  have h2 : "\" updated in \"".data <:+:
      ("Todo \"".data ++ ((idToString i).data ++
        ("\" updated in \"".data ++ (name.data ++ "\".".data)))) :=
    ⟨"Todo \"".data ++ (idToString i).data, name.data ++ "\".".data,
      by simp [List.append_assoc]⟩
  have h3 := h1.trans h2
  simpa [strContains, updatedMsg, String.data_append, List.append_assoc] using h3

theorem strContains_addedMsg (i : Option Nat) (name : String) :
    strContains "added" (addedMsg i name) := by
  have h1 : "added".data <:+: "\" added to \"".data := by decide
  have h2 : "\" added to \"".data <:+:
      ("Todo \"".data ++ ((idToString i).data ++
        ("\" added to \"".data ++ (name.data ++ "\".".data)))) :=
    ⟨"Todo \"".data ++ (idToString i).data, name.data ++ "\".".data,
      by simp [List.append_assoc]⟩
  have h3 := h1.trans h2
  simpa [strContains, addedMsg, String.data_append, List.append_assoc] using h3

/-! ### Facts about `replaceFirst` -/

theorem find?_replaceFirst (name : String) (nl : TodoList) (store : Store) (l : TodoList)
    (hfind : store.find? (fun x => x.name == name) = some l)
    (hnl : (nl.name == name) = true) :
    (replaceFirst name nl store).find? (fun x => x.name == name) = some nl := by
  induction store with
  | nil => simp [List.find?] at hfind
  | cons hd tl ih =>
    cases hh : hd.name == name with
    | true =>
      simp only [replaceFirst, hh, if_true]
      exact List.find?_cons_of_pos _ hnl
    | false =>
      rw [List.find?_cons_of_neg _ (by simp [hh])] at hfind
      simp only [replaceFirst, hh, Bool.false_eq_true, if_false]
      rw [List.find?_cons_of_neg _ (by simp [hh])]
      exact ih hfind

theorem filter_replaceFirst (name : String) (nl : TodoList) (store : Store)
    (hnl : (nl.name == name) = true) :
    (replaceFirst name nl store).filter (fun x => x.name != name) =
      store.filter (fun x => x.name != name) := by
  induction store with
  | nil => rfl
  | cons hd tl ih =>
    cases hh : hd.name == name with
    | true =>
      have h1 : nl.name = name := by simpa using hnl
      have h2 : hd.name = name := by simpa using hh
      simp [replaceFirst, hh, List.filter_cons, h1, h2]
    | false => simp [replaceFirst, hh, List.filter_cons, ih]

theorem map_name_replaceFirst (name : String) (nl : TodoList) (store : Store)
    (hnl : nl.name = name) :
    (replaceFirst name nl store).map TodoList.name = store.map TodoList.name := by
  induction store with
  | nil => rfl
  | cons hd tl ih =>
    cases hh : hd.name == name with
    | true =>
      have : hd.name = name := by simpa using hh
      simp [replaceFirst, hh, hnl, this]
    | false => simp [replaceFirst, hh, ih]

theorem mem_replaceFirst (name : String) (nl : TodoList) (store : Store) (x : TodoList)
    (hx : x ∈ replaceFirst name nl store) : x = nl ∨ x ∈ store := by
  induction store with
  | nil => simp [replaceFirst] at hx
  | cons hd tl ih =>
    cases hh : hd.name == name with
    | true =>
      rw [replaceFirst, if_pos hh] at hx
      rcases List.mem_cons.mp hx with h | h
      · exact .inl h
      · exact .inr (List.mem_cons_of_mem _ h)
    | false =>
      rw [replaceFirst, if_neg (by simp [hh])] at hx
      rcases List.mem_cons.mp hx with h | h
      · exact .inr (h ▸ List.mem_cons_self _ _)
      · rcases ih h with h' | h'
        · exact .inl h'
        · exact .inr (List.mem_cons_of_mem _ h')

/-! ### Characterization of the update branch -/

theorem update_found (maxItems : Nat) (name : String) (todo : TodoItem) (store : Store)
    (l : TodoList) (idx : Nat)
    (hname : name ≠ "")
    (hfind : store.find? (fun x => x.name == name) = some l)
    (hidx : l.todos.findIdx? (fun t => t.id == todo.id) = some idx) :
    update maxItems name (some todo) store =
      .ok (updatedMsg todo.id name,
           replaceFirst name ⟨l.name, l.todos.set idx todo⟩ store) := by
  simp [update, hname, hfind, hidx]

theorem update_insert (maxItems : Nat) (name : String) (todo : TodoItem) (store : Store)
    (l : TodoList)
    (hname : name ≠ "")
    (hfind : store.find? (fun x => x.name == name) = some l)
    (hnone : l.todos.findIdx? (fun t => t.id == todo.id) = none)
    (hlen : l.todos.length < maxItems) :
    update maxItems name (some todo) store =
      .ok (addedMsg todo.id name,
           replaceFirst name ⟨l.name, todo :: l.todos⟩ store) := by
  simp [update, hname, hfind, hnone, hlen]

theorem update_full (maxItems : Nat) (name : String) (todo : TodoItem) (store : Store)
    (l : TodoList)
    (hname : name ≠ "")
    (hfind : store.find? (fun x => x.name == name) = some l)
    (hnone : l.todos.findIdx? (fun t => t.id == todo.id) = none)
    (hlen : ¬ l.todos.length < maxItems) :
    update maxItems name (some todo) store = .error (maxErr maxItems name) := by
  simp [update, hname, hfind, hnone, hlen]

/-! ### What one handler step does to the persisted store -/

theorem stepStore_update_of_ok (maxItems : Nat) (name : String) (todo? : Option TodoItem)
    (store s : Store) (msg : String)
    (h : update maxItems name todo? store = .ok (msg, s)) :
    stepStore maxItems (.update name todo?) store = s := by
  simp [stepStore, handle, h]

theorem stepStore_update_of_error (maxItems : Nat) (name : String) (todo? : Option TodoItem)
    (store : Store) (e : String)
    (h : update maxItems name todo? store = .error e) :
    stepStore maxItems (.update name todo?) store = store := by
  simp [stepStore, handle, h]

theorem stepStore_create_eq (maxItems : Nat) (name : String) (store : Store) :
    stepStore maxItems (.create name) store = store ∨
    (store.find? (fun x => x.name == name) = none ∧
     stepStore maxItems (.create name) store = ⟨name, []⟩ :: store) := by
  by_cases hname : name = ""
  · exact .inl (by simp [stepStore, handle, create, hname])
  · cases hfind : store.find? (fun x => x.name == name) with
    | none => exact .inr ⟨rfl, by simp [stepStore, handle, create, hname, hfind]⟩
    | some l => exact .inl (by simp [stepStore, handle, create, hname, hfind])

theorem stepStore_update_eq (maxItems : Nat) (name : String) (todo? : Option TodoItem)
    (store : Store) :
    stepStore maxItems (.update name todo?) store = store ∨
    (∃ l idx todo, todo? = some todo ∧
      store.find? (fun x => x.name == name) = some l ∧
      stepStore maxItems (.update name todo?) store =
        replaceFirst name ⟨l.name, l.todos.set idx todo⟩ store) ∨
    (∃ l todo, todo? = some todo ∧
      store.find? (fun x => x.name == name) = some l ∧
      l.todos.length < maxItems ∧
      stepStore maxItems (.update name todo?) store =
        replaceFirst name ⟨l.name, todo :: l.todos⟩ store) := by
  by_cases hname : name = ""
  · exact .inl (by simp [stepStore, handle, update, hname])
  · cases todo? with
    | none => exact .inl (by simp [stepStore, handle, update, hname])
    | some todo =>
      cases hfind : store.find? (fun x => x.name == name) with
      | none => exact .inl (by simp [stepStore, handle, update, hname, hfind])
      | some l =>
        cases hidx : l.todos.findIdx? (fun t => t.id == todo.id) with
        | some idx =>
          refine .inr (.inl ⟨l, idx, todo, rfl, rfl, ?_⟩)
          exact stepStore_update_of_ok _ _ _ _ _ _
            (update_found maxItems name todo store l idx hname hfind hidx)
        | none =>
          by_cases hlen : l.todos.length < maxItems
          · refine .inr (.inr ⟨l, todo, rfl, rfl, hlen, ?_⟩)
            exact stepStore_update_of_ok _ _ _ _ _ _
              (update_insert maxItems name todo store l hname hfind hidx hlen)
          · refine .inl ?_
            exact stepStore_update_of_error _ _ _ _ _
              (update_full maxItems name todo store l hname hfind hidx hlen)

theorem stepStore_delete_eq (maxItems : Nat) (name : String) (store : Store) :
    stepStore maxItems (.delete name) store = store ∨
    stepStore maxItems (.delete name) store = store.filter (fun x => x.name != name) := by
  by_cases hname : name = ""
  · exact .inl (by simp [stepStore, handle, deleteList, hname])
  · exact .inr (by simp [stepStore, handle, deleteList, hname])

theorem stepStore_read_eq (maxItems : Nat) (store : Store) :
    stepStore maxItems .readAll store = store := rfl

/-! ### Preservation of the two store invariants by every handler step -/

theorem uniqueNames_stepStore (maxItems : Nat) (req : Request) (store : Store)
    (h : uniqueNames store) : uniqueNames (stepStore maxItems req store) := by
  cases req with
  | create name =>
    rcases stepStore_create_eq maxItems name store with heq | ⟨hnone, heq⟩
    · rw [heq]; exact h
    · rw [heq]
      unfold uniqueNames at h ⊢
      rw [List.map_cons]
      refine List.nodup_cons.mpr ⟨?_, h⟩
      intro hmem
      rcases List.mem_map.mp hmem with ⟨x, hx, hxname⟩
      have hne := List.find?_eq_none.mp hnone x hx
      simp only [beq_iff_eq] at hne
      exact hne hxname
  | readAll => exact h
  | update name todo? =>
    rcases stepStore_update_eq maxItems name todo? store with
      heq | ⟨l, idx, todo, _, hfind, heq⟩ | ⟨l, todo, _, hfind, _, heq⟩
    · rw [heq]; exact h
    · have hl : l.name = name := by simpa using List.find?_some hfind
      rw [heq]
      unfold uniqueNames at h ⊢
      rw [map_name_replaceFirst name ⟨l.name, l.todos.set idx todo⟩ store hl]
      exact h
    · have hl : l.name = name := by simpa using List.find?_some hfind
      rw [heq]
      unfold uniqueNames at h ⊢
      rw [map_name_replaceFirst name ⟨l.name, todo :: l.todos⟩ store hl]
      exact h
  | delete name =>
    rcases stepStore_delete_eq maxItems name store with heq | heq
    · rw [heq]; exact h
    · rw [heq]
      exact List.Nodup.sublist (List.Sublist.map _ (List.filter_sublist _)) h

theorem uniqueNames_run (maxItems : Nat) (reqs : List Request) (store : Store)
    (h : uniqueNames store) : uniqueNames (run maxItems reqs store) := by
  induction reqs generalizing store with
  | nil => exact h
  | cons r rs ih => exact ih _ (uniqueNames_stepStore maxItems r store h)

theorem bounded_stepStore (maxItems : Nat) (req : Request) (store : Store)
    (h : bounded maxItems store) : bounded maxItems (stepStore maxItems req store) := by
  cases req with
  | create name =>
    rcases stepStore_create_eq maxItems name store with heq | ⟨_, heq⟩
    · rw [heq]; exact h
    · rw [heq]
      intro x hx
      rcases List.mem_cons.mp hx with rfl | hx'
      · simp
      · exact h x hx'
  | readAll => exact h
  | update name todo? =>
    rcases stepStore_update_eq maxItems name todo? store with
      heq | ⟨l, idx, todo, _, hfind, heq⟩ | ⟨l, todo, _, hfind, hlen, heq⟩
    · rw [heq]; exact h
    · rw [heq]
      intro x hx
      rcases mem_replaceFirst name _ store x hx with rfl | hx'
      · have := h l (List.mem_of_find?_eq_some hfind)
        simpa [List.length_set] using this
      · exact h x hx'
    · rw [heq]
      intro x hx
      rcases mem_replaceFirst name _ store x hx with rfl | hx'
      · simpa using hlen
      · exact h x hx'
  | delete name =>
    rcases stepStore_delete_eq maxItems name store with heq | heq
    · rw [heq]; exact h
    · rw [heq]
      intro x hx
      exact h x (List.mem_of_mem_filter hx)

theorem bounded_run (maxItems : Nat) (reqs : List Request) (store : Store)
    (h : bounded maxItems store) : bounded maxItems (run maxItems reqs store) := by
  induction reqs generalizing store with
  | nil => exact h
  | cons r rs ih => exact ih _ (bounded_stepStore maxItems r store h)

/-- A ten-item todo list used to exercise the `MAX_TODO_ITEMS = 10` capacity
scenarios of the spec. -/
def w10 : List TodoItem :=
  [⟨some 9, "t9"⟩, ⟨some 8, "t8"⟩, ⟨some 7, "t7"⟩, ⟨some 6, "t6"⟩, ⟨some 5, "t5"⟩,
   ⟨some 4, "t4"⟩, ⟨some 3, "t3"⟩, ⟨some 2, "t2"⟩, ⟨some 1, "t1"⟩, ⟨some 0, "t0"⟩]

/-! ### The claims -/

/-- C1: for every store whose list named `name` contains an item with
`todo.id`, `update(name, todo)` replaces that item at its existing index
(length and all other positions unchanged), reports a message containing
"updated", and succeeds regardless of how full the list is (no capacity
hypothesis appears; the witness instantiates a list at capacity). -/
theorem update_replaces_item_in_place
    (maxItems : Nat) (name : String) (todo : TodoItem) (store : Store)
    (l : TodoList) (idx : Nat)
    (hname : name ≠ "")
    (hfind : store.find? (fun x => x.name == name) = some l)
    (hidx : l.todos.findIdx? (fun t => t.id == todo.id) = some idx) :
    update maxItems name (some todo) store =
      .ok (updatedMsg todo.id name,
           replaceFirst name ⟨l.name, l.todos.set idx todo⟩ store) ∧
    strContains "updated" (updatedMsg todo.id name) ∧
    (l.todos.set idx todo).length = l.todos.length ∧
    (l.todos.set idx todo)[idx]? = some todo ∧
    ∀ j, j ≠ idx → (l.todos.set idx todo)[j]? = l.todos[j]? := by
  have hlt : idx < l.todos.length := by
    rw [List.findIdx?_eq_some_iff_getElem] at hidx
    exact hidx.1
  refine ⟨update_found maxItems name todo store l idx hname hfind hidx,
    strContains_updatedMsg _ _, List.length_set _ _ _, ?_, ?_⟩
  · simp [List.getElem?_set, hlt]
  · intro j hj
    simp [List.getElem?_set, Ne.symm hj]

/-- Witness for C1: replacing id 5 in a list already holding ten items
(with `MAX_TODO_ITEMS = 10`) succeeds. -/
theorem update_replaces_item_in_place_witness :
    w10.length = 10 ∧
    update 10 "Work" (some ⟨some 5, "new"⟩) [⟨"Work", w10⟩] =
      .ok (updatedMsg (some 5) "Work",
           replaceFirst "Work" ⟨"Work", w10.set 4 ⟨some 5, "new"⟩⟩ [⟨"Work", w10⟩]) :=
  ⟨by rfl,
   (update_replaces_item_in_place 10 "Work" ⟨some 5, "new"⟩ [⟨"Work", w10⟩]
      ⟨"Work", w10⟩ 4 (by decide) (by rfl) (by rfl)).1⟩

/-- C2: inserting a brand-new id into a list at exactly the cap fails with
the "Max ... todos reached" error and leaves the persisted store untouched
(a subsequent read returns it verbatim); below the cap, the item goes to the
front and the message reports "added". -/
theorem update_capacity_behavior
    (maxItems : Nat) (name : String) (todo : TodoItem) (store : Store) (l : TodoList)
    (hname : name ≠ "")
    (hfind : store.find? (fun x => x.name == name) = some l)
    (hnone : l.todos.findIdx? (fun t => t.id == todo.id) = none) :
    (l.todos.length = maxItems →
      update maxItems name (some todo) store = .error (maxErr maxItems name) ∧
      stepStore maxItems (.update name (some todo)) store = store ∧
      (handle maxItems .readAll
        (stepStore maxItems (.update name (some todo)) store)).1 =
          .ok ⟨none, some store⟩) ∧
    (l.todos.length < maxItems →
      update maxItems name (some todo) store =
        .ok (addedMsg todo.id name,
             replaceFirst name ⟨l.name, todo :: l.todos⟩ store) ∧
      strContains "added" (addedMsg todo.id name)) := by
  constructor
  · intro hfull
    have hnl : ¬ l.todos.length < maxItems := by omega
    have herr := update_full maxItems name todo store l hname hfind hnone hnl
    have hstep := stepStore_update_of_error _ _ _ _ _ herr
    refine ⟨herr, hstep, ?_⟩
    rw [hstep]
    rfl
  · intro hlt
    exact ⟨update_insert maxItems name todo store l hname hfind hnone hlt,
      strContains_addedMsg _ _⟩

/-- Witness for C2: an eleventh distinct id on a ten-item list fails with
the capacity error; the same id on a one-item list is inserted at the front. -/
theorem update_capacity_behavior_witness :
    update 10 "Work" (some ⟨some 99, "x"⟩) [⟨"Work", w10⟩] = .error (maxErr 10 "Work") ∧
    update 10 "Play" (some ⟨some 99, "x"⟩) [⟨"Play", [⟨some 1, "a"⟩]⟩] =
      .ok (addedMsg (some 99) "Play",
           replaceFirst "Play" ⟨"Play", ⟨some 99, "x"⟩ :: [⟨some 1, "a"⟩]⟩
             [⟨"Play", [⟨some 1, "a"⟩]⟩]) :=
  ⟨((update_capacity_behavior 10 "Work" ⟨some 99, "x"⟩ [⟨"Work", w10⟩] ⟨"Work", w10⟩
      (by decide) (by rfl) (by rfl)).1 (by rfl)).1,
   ((update_capacity_behavior 10 "Play" ⟨some 99, "x"⟩ [⟨"Play", [⟨some 1, "a"⟩]⟩]
      ⟨"Play", [⟨some 1, "a"⟩]⟩ (by decide) (by rfl) (by rfl)).2 (by decide)).1⟩

/-- C3: starting from the empty store, no sequence of requests ever
produces two lists with the same name; and `create` on an existing name
fails with the "already exists" error without mutating the store. -/
theorem store_never_duplicates_names
    (maxItems : Nat) (reqs : List Request) (name : String) (store : Store) (l : TodoList)
    (hname : name ≠ "")
    (hfind : store.find? (fun x => x.name == name) = some l) :
    uniqueNames (run maxItems reqs []) ∧
    create name store = .error (existsErr name) ∧
    stepStore maxItems (.create name) store = store := by
  have hsome : (store.find? (fun x => x.name == name)).isSome = true := by
    rw [hfind]; rfl
  refine ⟨uniqueNames_run maxItems reqs [] (by simp [uniqueNames]), ?_, ?_⟩
  · simp [create, hname, hsome]
  · simp [stepStore, handle, create, hname, hsome]

/-- Witness for C3: a concrete workload including a duplicate create, and a
duplicate `create "Work"` on a store already holding `"Work"`. -/
theorem store_never_duplicates_names_witness :
    uniqueNames (run 10
      [.create "Work", .create "Work", .update "Work" (some ⟨some 1, "a"⟩),
       .create "Play", .delete "Work"] []) ∧
    create "Work" [⟨"Work", []⟩] = .error (existsErr "Work") :=
  ⟨(store_never_duplicates_names 10
      [.create "Work", .create "Work", .update "Work" (some ⟨some 1, "a"⟩),
       .create "Play", .delete "Work"] "Work" [⟨"Work", []⟩] ⟨"Work", []⟩
      (by decide) (by rfl)).1,
   (store_never_duplicates_names 10 [] "Work" [⟨"Work", []⟩] ⟨"Work", []⟩
      (by decide) (by rfl)).2.1⟩

/-- C4: with a fixed positive `MAX_TODO_ITEMS`, every list in the store
reachable from the empty store by any request sequence holds at most
`MAX_TODO_ITEMS` items (hence after every intermediate operation too, each
prefix being itself such a sequence). -/
theorem lists_never_exceed_cap (maxItems : Nat) (hpos : 0 < maxItems)
    (reqs : List Request) :
    bounded maxItems (run maxItems reqs []) :=
  bounded_run maxItems reqs [] (by intro l hl; cases hl)

/-- Witness for C4 at `MAX_TODO_ITEMS = 10` on a workload that tries to
overfill a list. -/
theorem lists_never_exceed_cap_witness :
    0 < 10 ∧ bounded 10 (run 10
      [.create "Work", .update "Work" (some ⟨some 1, "a"⟩),
       .update "Work" (some ⟨some 2, "b"⟩)] []) :=
  ⟨by decide,
   lists_never_exceed_cap 10 (by decide)
     [.create "Work", .update "Work" (some ⟨some 1, "a"⟩),
      .update "Work" (some ⟨some 2, "b"⟩)]⟩

/-- C5 counterexample: updating the existing item with id 2, which sits at
index 1 behind the item with id 1, leaves it at index 1 — the head of the
list after the update is still the item with id 1, not the updated item, so
an updated existing item does not move to the front. -/
theorem updated_item_not_moved_to_front_cex :
    update 10 "Work" (some ⟨some 2, "x"⟩) [⟨"Work", [⟨some 1, "a"⟩, ⟨some 2, "b"⟩]⟩] =
      .ok (updatedMsg (some 2) "Work", [⟨"Work", [⟨some 1, "a"⟩, ⟨some 2, "x"⟩]⟩]) ∧
    ([⟨some 1, "a"⟩, ⟨some 2, "x"⟩] : List TodoItem).head? ≠ some ⟨some 2, "x"⟩ :=
  ⟨by rfl, by decide⟩

/-- C5 amended: only a newly added item ends up at the front of the list's
items; an updated existing item is replaced in place at its existing index
and is not repositioned. -/
theorem update_positioning_amended
    (maxItems : Nat) (name : String) (todo : TodoItem) (store : Store) (l : TodoList)
    (hname : name ≠ "")
    (hfind : store.find? (fun x => x.name == name) = some l) :
    (l.todos.findIdx? (fun t => t.id == todo.id) = none →
      l.todos.length < maxItems →
      update maxItems name (some todo) store =
        .ok (addedMsg todo.id name,
             replaceFirst name ⟨l.name, todo :: l.todos⟩ store)) ∧
    (∀ idx, l.todos.findIdx? (fun t => t.id == todo.id) = some idx →
      update maxItems name (some todo) store =
        .ok (updatedMsg todo.id name,
             replaceFirst name ⟨l.name, l.todos.set idx todo⟩ store)) :=
  ⟨fun hnone hlen => update_insert maxItems name todo store l hname hfind hnone hlen,
   fun idx hidx => update_found maxItems name todo store l idx hname hfind hidx⟩

/-- Witness for the amended C5: a new id lands at the front; an existing id
is rewritten at its index. -/
theorem update_positioning_amended_witness :
    update 10 "Work" (some ⟨some 3, "c"⟩) [⟨"Work", [⟨some 1, "a"⟩, ⟨some 2, "b"⟩]⟩] =
      .ok (addedMsg (some 3) "Work",
           replaceFirst "Work" ⟨"Work", ⟨some 3, "c"⟩ :: [⟨some 1, "a"⟩, ⟨some 2, "b"⟩]⟩
             [⟨"Work", [⟨some 1, "a"⟩, ⟨some 2, "b"⟩]⟩]) ∧
    update 10 "Work" (some ⟨some 2, "x"⟩) [⟨"Work", [⟨some 1, "a"⟩, ⟨some 2, "b"⟩]⟩] =
      .ok (updatedMsg (some 2) "Work",
           replaceFirst "Work" ⟨"Work", ([⟨some 1, "a"⟩, ⟨some 2, "b"⟩] : List TodoItem).set 1 ⟨some 2, "x"⟩⟩
             [⟨"Work", [⟨some 1, "a"⟩, ⟨some 2, "b"⟩]⟩]) :=
  ⟨(update_positioning_amended 10 "Work" ⟨some 3, "c"⟩
      [⟨"Work", [⟨some 1, "a"⟩, ⟨some 2, "b"⟩]⟩] ⟨"Work", [⟨some 1, "a"⟩, ⟨some 2, "b"⟩]⟩
      (by decide) (by rfl)).1 (by rfl) (by decide),
   (update_positioning_amended 10 "Work" ⟨some 2, "x"⟩
      [⟨"Work", [⟨some 1, "a"⟩, ⟨some 2, "b"⟩]⟩] ⟨"Work", [⟨some 1, "a"⟩, ⟨some 2, "b"⟩]⟩
      (by decide) (by rfl)).2 1 (by rfl)⟩

/-- C6: when nothing has been persisted yet, or the persisted content is
malformed, `readStore` yields the empty store (recovered locally, never an
error by its very type), and every request behaves exactly as on the empty
store. -/
theorem degraded_start_as_empty (maxItems : Nat) (req : Request) (raw : RawStore)
    (h : raw = .absent ∨ raw = .malformed) :
    readStore raw = [] ∧
    handle maxItems req (readStore raw) = handle maxItems req [] := by
  rcases h with rfl | rfl <;> exact ⟨rfl, rfl⟩

/-- Witness for C6 on a concrete request against the never-persisted store. -/
theorem degraded_start_as_empty_witness :
    readStore .absent = [] ∧
    handle 10 (.create "Work") (readStore .absent) = handle 10 (.create "Work") [] :=
  degraded_start_as_empty 10 (.create "Work") .absent (.inl rfl)

/-- C7 counterexample: an update whose todo is present but has no id is not
rejected — on a store holding the list `"Work"`, it succeeds with an "added"
message and mutates the persisted store. -/
theorem update_without_id_succeeds_cex :
    update 10 "Work" (some ⟨none, "x"⟩) [⟨"Work", []⟩] =
      .ok (addedMsg none "Work", [⟨"Work", [⟨none, "x"⟩]⟩]) ∧
    stepStore 10 (.update "Work" (some ⟨none, "x"⟩)) [⟨"Work", []⟩] ≠ [⟨"Work", []⟩] :=
  ⟨by rfl, by decide⟩

/-- C7 amended: the update branch validates only that `todo` itself is
present (a missing `todo` is the sole InvalidArgument case); a todo lacking
an id is upserted like any other item, its absent id participating in the
by-id match, and is inserted at the front when unmatched and below capacity. -/
theorem update_without_id_upserts
    (maxItems : Nat) (name : String) (todo : TodoItem) (store : Store) (l : TodoList)
    (hname : name ≠ "")
    (hid : todo.id = none)
    (hfind : store.find? (fun x => x.name == name) = some l)
    (hnone : l.todos.findIdx? (fun t => t.id == todo.id) = none)
    (hlen : l.todos.length < maxItems) :
    update maxItems name none store = .error missingTodoErr ∧
    update maxItems name (some todo) store =
      .ok (addedMsg todo.id name,
           replaceFirst name ⟨l.name, todo :: l.todos⟩ store) :=
  ⟨by simp [update, hname],
   update_insert maxItems name todo store l hname hfind hnone hlen⟩

/-- Witness for the amended C7: the id-less todo from the counterexample
input is inserted, while omitting `todo` altogether is what errors. -/
theorem update_without_id_upserts_witness :
    update 10 "Work" none [⟨"Work", []⟩] = .error missingTodoErr ∧
    update 10 "Work" (some ⟨none, "x"⟩) [⟨"Work", []⟩] =
      .ok (addedMsg none "Work",
           replaceFirst "Work" ⟨"Work", [⟨none, "x"⟩]⟩ [⟨"Work", []⟩]) :=
  update_without_id_upserts 10 "Work" ⟨none, "x"⟩ [⟨"Work", []⟩] ⟨"Work", []⟩
    (by decide) rfl (by rfl) (by rfl) (by decide)

/-- C8: on a list with room for two more items, inserting `a` and then `b`
(distinct fresh ids) leaves `b` directly before `a` at the front of the
list that `read` returns. -/
theorem later_update_precedes_earlier
    (maxItems : Nat) (name : String) (a b : TodoItem) (store : Store) (l : TodoList)
    (hname : name ≠ "")
    (hfind : store.find? (fun x => x.name == name) = some l)
    (ha : l.todos.findIdx? (fun t => t.id == a.id) = none)
    (hb : l.todos.findIdx? (fun t => t.id == b.id) = none)
    (hab : (a.id == b.id) = false)
    (hlen : l.todos.length + 1 < maxItems) :
    (run maxItems [.update name (some a), .update name (some b)] store).find?
        (fun x => x.name == name) = some ⟨l.name, b :: a :: l.todos⟩ ∧
    (handle maxItems .readAll
        (run maxItems [.update name (some a), .update name (some b)] store)).1 =
      .ok ⟨none, some (run maxItems [.update name (some a), .update name (some b)] store)⟩ := by
  have hl : (l.name == name) = true := by simpa using List.find?_some hfind
  have h1 := update_insert maxItems name a store l hname hfind ha (by omega)
  have hs1 : stepStore maxItems (.update name (some a)) store =
      replaceFirst name ⟨l.name, a :: l.todos⟩ store :=
    stepStore_update_of_ok _ _ _ _ _ _ h1
  have hfind1 : (replaceFirst name ⟨l.name, a :: l.todos⟩ store).find?
      (fun x => x.name == name) = some ⟨l.name, a :: l.todos⟩ :=
    find?_replaceFirst name _ store l hfind hl
  have hbidx : (a :: l.todos).findIdx? (fun t => t.id == b.id) = none := by
    rw [List.findIdx?_cons]
    simp [hab, hb]
  have h2 := update_insert maxItems name b
    (replaceFirst name ⟨l.name, a :: l.todos⟩ store) ⟨l.name, a :: l.todos⟩
    hname hfind1 hbidx (by simpa using hlen)
  have hs2 : stepStore maxItems (.update name (some b))
      (replaceFirst name ⟨l.name, a :: l.todos⟩ store) =
      replaceFirst name ⟨l.name, b :: a :: l.todos⟩
        (replaceFirst name ⟨l.name, a :: l.todos⟩ store) :=
    stepStore_update_of_ok _ _ _ _ _ _ h2
  have hrun : run maxItems [.update name (some a), .update name (some b)] store =
      replaceFirst name ⟨l.name, b :: a :: l.todos⟩
        (replaceFirst name ⟨l.name, a :: l.todos⟩ store) := by
    simp only [run, List.foldl_cons, List.foldl_nil]
    rw [hs1, hs2]
  refine ⟨?_, rfl⟩
  rw [hrun]
  exact find?_replaceFirst name _ _ ⟨l.name, a :: l.todos⟩ hfind1 hl

/-- Witness for C8 on an initially empty `"Work"` list. -/
theorem later_update_precedes_earlier_witness :
    (run 10 [.update "Work" (some ⟨some 1, "a"⟩), .update "Work" (some ⟨some 2, "b"⟩)]
        [⟨"Work", []⟩]).find? (fun x => x.name == "Work") =
      some ⟨"Work", [⟨some 2, "b"⟩, ⟨some 1, "a"⟩]⟩ :=
  (later_update_precedes_earlier 10 "Work" ⟨some 1, "a"⟩ ⟨some 2, "b"⟩
    [⟨"Work", []⟩] ⟨"Work", []⟩ (by decide) (by rfl) (by rfl) (by rfl)
    (by decide) (by decide)).1

/-- C10: for every request carrying a list name (create, update with any
optional todo, delete), the subsequence of lists whose name differs from
the request's name — each with its items and its position among the other
unaffected lists — is exactly the same before and after the step, on every
success and every error path. -/
theorem other_lists_unchanged (maxItems : Nat) (name : String) (todo? : Option TodoItem)
    (store : Store) :
    (stepStore maxItems (.create name) store).filter (fun x => x.name != name) =
      store.filter (fun x => x.name != name) ∧
    (stepStore maxItems (.update name todo?) store).filter (fun x => x.name != name) =
      store.filter (fun x => x.name != name) ∧
    (stepStore maxItems (.delete name) store).filter (fun x => x.name != name) =
      store.filter (fun x => x.name != name) := by
  refine ⟨?_, ?_, ?_⟩
  · rcases stepStore_create_eq maxItems name store with heq | ⟨_, heq⟩
    · rw [heq]
    · rw [heq, List.filter_cons]
      simp
  · rcases stepStore_update_eq maxItems name todo? store with
      heq | ⟨l, idx, todo, _, hfind, heq⟩ | ⟨l, todo, _, hfind, _, heq⟩
    · rw [heq]
    · rw [heq]
      have hl : (l.name == name) = true := by simpa using List.find?_some hfind
      exact filter_replaceFirst name ⟨l.name, l.todos.set idx todo⟩ store hl
    · rw [heq]
      have hl : (l.name == name) = true := by simpa using List.find?_some hfind
      exact filter_replaceFirst name ⟨l.name, todo :: l.todos⟩ store hl
  · rcases stepStore_delete_eq maxItems name store with heq | heq
    · rw [heq]
    · rw [heq, List.filter_filter]
      simp

end TodoApp
